import Mathlib

/-!
Verification development for the `nomad action` interactive exec command and
the associated data structures (`Action`, legacy CPU topology conversion).

The Go sources are embedded shallowly:

* pure functions become Lean functions,
* external collaborators (API client calls, terminal syscalls) become oracle
  values carried in explicit environment records,
* machine integers are `Int`/`Nat` with explicit `% 2^64` where Go wraps,
* fallible calls are `Except`,
* Go byte values are `Nat` (all relevant values are ASCII).
-/

/-! ### Escape-abort callback and signal handler (command/action.go, execImpl)

The callback wired into `escapingio.NewReader` and the signal goroutine are
modelled as pure emitters of an effect trace: the order of effects in the
list is the order of the side-effecting statements in the Go source. -/

/-- Side effects the abort paths of `execImpl` can perform. -/
inductive TermEffect
  | restoreOutput
  | restoreInput
  | writeStderr (msg : String)
  | cancel
deriving DecidableEq

/-- The notice written by the escape abort path: `"\nConnection closed\n"`. -/
def connectionClosedMsg : String := "\nConnection closed\n"

/-- The abort callback passed to `escapingio.NewReader` in `execImpl`.
The argument is the byte following the escape character (46 is ASCII for a
dot). On a dot the Go code runs `outCleanup(); inCleanup();
stderr.Write("\nConnection closed\n"); cancelFn()` and returns `true`
(sequence swallowed); on any other byte it returns `false` with no effects. -/
def abortCallback (c : Nat) : Bool × List TermEffect :=
  if c = 46 then
    (true, [TermEffect.restoreOutput, TermEffect.restoreInput,
            TermEffect.writeStderr connectionClosedMsg, TermEffect.cancel])
  else
    (false, [])

/-- The signal goroutine in `execImpl`: `for range signalCh { cancelFn() }`.
Each delivered interrupt or terminate signal fires the cancellation function
and nothing else. -/
def signalHandlerEffects : List TermEffect := [TermEffect.cancel]

/-! ### execImpl exit-code behaviour -/

/-- Oracle environment for `execImpl`: results of the external terminal
calls and of the remote `ActionExec` RPC. -/
structure ExecEnv where
  stdinPresent : Bool
  rawIn : Except String Unit
  rawOut : Except String Unit
  sizeWatch : Except String Unit
  execResult : Int × Option String

/-- Exit-code projection of `execImpl` (command/action.go). When `tty`, the
stdin-nil check and the three terminal acquisitions run in order, each error
returning `(-1, err)`; otherwise the function returns the `ActionExec`
result unchanged. The `escChar` parameter only affects stdin wrapping (see
`escapeScannerByte`), never the returned code. -/
def execImpl (tty : Bool) (escChar : String) (env : ExecEnv) : Int × Option String :=
  if tty then
    if env.stdinPresent = false then
      ((-1 : Int), some "stdin is null")
    else
      match env.rawIn with
      | Except.error e => ((-1 : Int), some e)
      | Except.ok _ =>
        match env.rawOut with
        | Except.error e => ((-1 : Int), some e)
        | Except.ok _ =>
          match env.sizeWatch with
          | Except.error e => ((-1 : Int), some e)
          | Except.ok _ => env.execResult
  else
    env.execResult

/-! ### Escape-character flag handling (command/action.go, Run) -/

/-- Go `len(s)` on a string counts UTF-8 bytes. -/
def goLen (s : String) : Nat := s.utf8ByteSize

/-- Go `s[0]`: the first byte of the string. Every escape character accepted
by the validation is a single byte, hence ASCII, so the first byte equals the
code of the first character. -/
def goFirstByte (s : String) : Nat := (s.toList.headD (Char.ofNat 0)).toNat

/-- The normalisation in `Run`: `if escapeChar == "none" { escapeChar = "" }`. -/
def normalizeEscapeChar (e : String) : String := if e = "none" then "" else e

/-- The validation in `Run`: after normalisation,
`if len(escapeChar) > 1 { error }`. -/
def escapeFlagRejected (e : String) : Bool := goLen (normalizeEscapeChar e) > 1

/-- Which escape byte (if any) `execImpl` wires into the scanner: the Go code
wraps stdin with `escapingio.NewReader(stdin, escapeChar[0], cb)` exactly when
`tty` holds and the (normalised) escape string is nonempty. `none` means the
session runs without escape processing. -/
def escapeScannerByte (tty : Bool) (escChar : String) : Option Nat :=
  if tty ∧ escChar ≠ "" then some (goFirstByte escChar) else none

/-! ### Allocation / task data and the external helpers used by Run -/

/-- An element of the list returned by `Allocations().PrefixList`
(`api.AllocationListStub`), restricted to the fields `Run` reads. -/
structure AllocStub where
  ID : String
  NS : String
deriving DecidableEq

/-- The allocation returned by `Allocations().Info`, restricted to what the
task-resolution helpers read: the names of the tasks of its task group. -/
structure Allocation where
  ID : String
  Tasks : List String
deriving DecidableEq

/-- Modelled from the spec: `validateTaskExistsInAllocation` is defined
outside the provided sources; per the spec the explicit `-task` flag is
"validated to exist in the chosen allocation". -/
def validateTaskExistsInAllocation (taskName : String) (alloc : Allocation) :
    Except String Unit :=
  if alloc.Tasks.contains taskName then Except.ok ()
  else Except.error ("Could not find task named: " ++ taskName)

/-- Modelled from the spec: `lookupAllocTask` is defined outside the provided
sources; per the spec the task is inferred "by a well-defined single-task
inference when the allocation has exactly one task", and any other shape is
an error. -/
def lookupAllocTask (alloc : Allocation) : Except String String :=
  match alloc.Tasks with
  | [t] => Except.ok t
  | _ => Except.error "Allocation has multiple tasks, please specify the task"

/-! ### The Run entry point (command/action.go) -/

/-- The flag and argument values of one invocation, after flag parsing
(the flag package itself is an external collaborator). `args` is the list of
positional arguments remaining after flags. -/
structure RunInput where
  args : List String
  job : String
  group : String
  task : String
  allocation : String
  stdinOpt : Bool
  ttyOpt : Bool
  escapeChar : String

/-- Oracle environment for `Run`: the responses of the external client
calls, consulted in the order the Go code makes them. `allocInfo` is keyed
by the allocation ID it is queried with. -/
structure RunEnv where
  clientInit : Except String Unit
  jobIDLookup : Except String (String × String)
  randomAlloc : Except String AllocStub
  allocList : Except String (List AllocStub)
  allocInfo : String → Except String Allocation
  exec : ExecEnv

/-- Where `Run` stopped, mirroring each `return` site of the Go source.
Error constructors carry the data the corresponding message is built from. -/
inductive RunOutcome
  | errNoAction
  | errNoJob
  | errTtyNoStdin
  | errEscapeLen
  | errClientInit (msg : String)
  | errNoGroup
  | errNoTask
  | errJobID (msg : String)
  | errRandomAlloc (msg : String)
  | errAllocQuery (msg : String)
  | errAllocNotFound (pfx : String)
  | errAllocAmbiguous (allocs : List AllocStub)
  | errAllocInfo (msg : String)
  | errTask (msg : String)
  | errExec (msg : String)
  | exited (code : Int) (target : AllocStub) (taskName : String)
deriving DecidableEq

/-- The target-allocation resolution block of `Run`: when `-allocation` is
empty, a group and task are required and a random allocation of the job is
chosen; otherwise the allocation list matching the given ID or prefix must
contain exactly one element (zero yields not-found, several yield the
ambiguity error carrying the candidate list). An `Except.error` carries the
`(exit code, outcome)` pair `Run` returns at that site. -/
def resolveAllocStub (i : RunInput) (env : RunEnv) :
    Except (Int × RunOutcome) AllocStub :=
  if i.allocation = "" then
    if i.group = "" then Except.error (1, RunOutcome.errNoGroup)
    else if i.task = "" then Except.error (1, RunOutcome.errNoTask)
    else
      match env.jobIDLookup with
      | Except.error e => Except.error (1, RunOutcome.errJobID e)
      | Except.ok _ =>
        match env.randomAlloc with
        | Except.error e => Except.error (1, RunOutcome.errRandomAlloc e)
        | Except.ok stub => Except.ok stub
  else
    match env.allocList with
    | Except.error e => Except.error (1, RunOutcome.errAllocQuery e)
    | Except.ok allocs =>
      match allocs with
      | [] => Except.error (1, RunOutcome.errAllocNotFound i.allocation)
      | [stub] => Except.ok stub
      | _ => Except.error (1, RunOutcome.errAllocAmbiguous allocs)

/-- The task-resolution step of `Run`: an explicit `-task` flag is validated
against the allocation, otherwise the task is inferred from the allocation. -/
def resolveTask (flagTask : String) (alloc : Allocation) : Except String String :=
  if flagTask ≠ "" then
    (validateTaskExistsInAllocation flagTask alloc).map (fun _ => flagTask)
  else
    lookupAllocTask alloc

/-- The tail of `Run`: invoke `execImpl` and map its result to the process
outcome — any error yields exit code 1, otherwise the remote code is
returned unchanged. -/
def finishSession (i : RunInput) (env : RunEnv) (stub : AllocStub)
    (taskName : String) : Int × RunOutcome :=
  match execImpl i.ttyOpt (normalizeEscapeChar i.escapeChar) env.exec with
  | (_, some e) => (1, RunOutcome.errExec e)
  | (code, none) => (code, RunOutcome.exited code stub taskName)

/-- `Run` (command/action.go): the validation checks in source order, then
client initialisation, target resolution, allocation info, task resolution
and the session itself. Returns the Go function's `int` together with the
outcome tag of the `return` site taken. -/
def runCmd (i : RunInput) (env : RunEnv) : Int × RunOutcome :=
  if i.args.length < 1 then (1, RunOutcome.errNoAction)
  else if i.job = "" then (1, RunOutcome.errNoJob)
  else if i.ttyOpt && !i.stdinOpt then (1, RunOutcome.errTtyNoStdin)
  else if escapeFlagRejected i.escapeChar then (1, RunOutcome.errEscapeLen)
  else
    match env.clientInit with
    | Except.error e => (1, RunOutcome.errClientInit e)
    | Except.ok _ =>
      match resolveAllocStub i env with
      | Except.error r => r
      | Except.ok stub =>
        match env.allocInfo stub.ID with
        | Except.error e => (1, RunOutcome.errAllocInfo e)
        | Except.ok alloc =>
          match resolveTask i.task alloc with
          | Except.error e => (1, RunOutcome.errTask e)
          | Except.ok taskName => finishSession i env stub taskName

/-- The four checks `Run` performs before any client state is created. -/
def isValidationOutcome : RunOutcome → Bool
  | RunOutcome.errNoAction => true
  | RunOutcome.errNoJob => true
  | RunOutcome.errTtyNoStdin => true
  | RunOutcome.errEscapeLen => true
  | _ => false

/-- All four pre-client validation checks pass. -/
def passesFlagValidation (i : RunInput) : Bool :=
  decide (1 ≤ i.args.length) && !(i.job = "") && !(i.ttyOpt && !i.stdinOpt)
    && !(escapeFlagRejected i.escapeChar)

/-! ### Scoped terminal resources of execImpl (C7)

In the tty branch of `execImpl` the Go code acquires, in order, the input
terminal raw mode (`setRawTerminal`), the output terminal raw mode
(`setRawTerminalOutput`) and the size watcher (`watchTerminalSize`),
registering `defer inCleanup()`, `defer outCleanup()`, `defer sizeCleanup()`
as each succeeds; Go defers run last-in first-out. The escape-abort callback
additionally calls `outCleanup(); inCleanup()` explicitly before the defers
run. -/

/-- The three scoped resources of an interactive session. -/
inductive ScopedRes
  | inputTerm
  | outputTerm
  | sizeWatcher
deriving DecidableEq, Fintype

/-- Mutable view of the released state: a flag per resource plus a count of
the releases that actually took effect (altered terminal mode or stopped the
watcher). -/
structure CleanupState where
  inputRestored : Bool
  outputRestored : Bool
  sizeStopped : Bool
  inputActions : Nat
  outputActions : Nat
  sizeActions : Nat
deriving DecidableEq

/-- Nothing released yet. -/
def initCleanupState : CleanupState :=
  { inputRestored := false, outputRestored := false, sizeStopped := false,
    inputActions := 0, outputActions := 0, sizeActions := 0 }

/-- Modelled from the spec: the release closures returned by
`setRawTerminal`, `setRawTerminalOutput` and `watchTerminalSize` are defined
outside the provided sources; per the spec, "restore() called twice must not
error and must not alter terminal mode the second time (idempotence)", so a
release whose flag is already set does nothing. -/
def applyRelease (s : CleanupState) (r : ScopedRes) : CleanupState :=
  match r with
  | ScopedRes.inputTerm =>
    if s.inputRestored then s
    else { s with inputRestored := true, inputActions := s.inputActions + 1 }
  | ScopedRes.outputTerm =>
    if s.outputRestored then s
    else { s with outputRestored := true, outputActions := s.outputActions + 1 }
  | ScopedRes.sizeWatcher =>
    if s.sizeStopped then s
    else { s with sizeStopped := true, sizeActions := s.sizeActions + 1 }

/-- Run a sequence of release invocations left to right. -/
def runReleases (s : CleanupState) (rs : List ScopedRes) : CleanupState :=
  rs.foldl applyRelease s

/-- The exit paths of the tty branch of `execImpl` that reach at least one
acquisition: failure of the second or third acquisition, normal return of
`ActionExec` (with or without error), and return after the escape-abort
callback ran. -/
inductive TtyExitPath
  | errRawOut
  | errSizeWatch
  | normal
  | escapeAbort
deriving DecidableEq, Fintype

/-- The resources acquired before the path exits, in acquisition order
(the order of the `setRawTerminal`, `setRawTerminalOutput`,
`watchTerminalSize` calls in the source). -/
def acquiredOn : TtyExitPath → List ScopedRes
  | TtyExitPath.errRawOut => [ScopedRes.inputTerm]
  | TtyExitPath.errSizeWatch => [ScopedRes.inputTerm, ScopedRes.outputTerm]
  | TtyExitPath.normal =>
      [ScopedRes.inputTerm, ScopedRes.outputTerm, ScopedRes.sizeWatcher]
  | TtyExitPath.escapeAbort =>
      [ScopedRes.inputTerm, ScopedRes.outputTerm, ScopedRes.sizeWatcher]

/-- The deferred release invocations that run when the path returns: the
registered defers in last-in first-out order. -/
def deferredReleases : TtyExitPath → List ScopedRes
  | TtyExitPath.errRawOut => [ScopedRes.inputTerm]
  | TtyExitPath.errSizeWatch => [ScopedRes.outputTerm, ScopedRes.inputTerm]
  | TtyExitPath.normal =>
      [ScopedRes.sizeWatcher, ScopedRes.outputTerm, ScopedRes.inputTerm]
  | TtyExitPath.escapeAbort =>
      [ScopedRes.sizeWatcher, ScopedRes.outputTerm, ScopedRes.inputTerm]

/-- The explicit `outCleanup(); inCleanup()` calls inside the escape-abort
callback, in source order. -/
def escapeCallbackReleases : List ScopedRes :=
  [ScopedRes.outputTerm, ScopedRes.inputTerm]

/-- Every release invocation the path performs, in execution order: the
escape path runs the callback's explicit releases first, then the defers. -/
def releaseInvocations : TtyExitPath → List ScopedRes
  | TtyExitPath.escapeAbort =>
      escapeCallbackReleases ++ deferredReleases TtyExitPath.escapeAbort
  | p => deferredReleases p

/-- Final cleanup state after the path's release invocations. -/
def finalCleanupState (p : TtyExitPath) : CleanupState :=
  runReleases initCleanupState (releaseInvocations p)

/-- How many effective releases the path performed on a resource. -/
def effectiveCount (p : TtyExitPath) (r : ScopedRes) : Nat :=
  match r with
  | ScopedRes.inputTerm => (finalCleanupState p).inputActions
  | ScopedRes.outputTerm => (finalCleanupState p).outputActions
  | ScopedRes.sizeWatcher => (finalCleanupState p).sizeActions

/-! ### Action value semantics (nomad/structs/actions.go)

Go slices are references into a heap; `Action.Copy` does a shallow struct
copy and then replaces `Args` with `slices.Clone`, a freshly allocated slice
with the same elements. To state storage independence, `Args` is a reference
into an explicit store of string slices. -/

namespace structs

/-- A heap of string slices; a slice reference is an index into `cells`. -/
structure Store where
  cells : List (List String)
deriving DecidableEq

/-- Read a slice out of the store. -/
def Store.get (s : Store) (r : Nat) : List String := s.cells.getD r []

/-- Overwrite the slice a reference points at (models mutating the slice). -/
def Store.set (s : Store) (r : Nat) (v : List String) : Store :=
  { cells := s.cells.set r v }

/-- Allocate a fresh slice holding `v`; returns the new store and the fresh
reference. -/
def Store.alloc (s : Store) (v : List String) : Store × Nat :=
  ({ cells := s.cells ++ [v] }, s.cells.length)

/-- A reference is live in the store. -/
def Store.valid (s : Store) (r : Nat) : Prop := r < s.cells.length

/-- `structs.Action`: `Name` and `Command` are values, `Args` is a slice
reference. A Go `*Action` is `Option Action` (`none` is the nil pointer). -/
structure Action where
  Name : String
  Command : String
  Args : Nat
deriving DecidableEq

/-- `Action.Copy`: nil maps to nil; otherwise a shallow struct copy whose
`Args` is replaced by `slices.Clone(a.Args)` — a fresh allocation holding
the same elements. Returns the store extended by the clone together with
the copy. -/
def Action.Copy (s : Store) : Option Action → Store × Option Action
  | none => (s, none)
  | some a =>
    let alloced := s.alloc (s.get a.Args)
    (alloced.1, some { a with Args := alloced.2 })

/-- `Action.Equal`: the Go receiver shortcut `a == o` on two nil pointers
yields true (for two equal non-nil pointers it agrees with the structural
comparison below); exactly one nil yields false; otherwise compare `Name`,
`Command` and the elements of the `Args` slices (`slices.Equal`). -/
def Action.Equal (s : Store) : Option Action → Option Action → Bool
  | none, none => true
  | some a, some o =>
    a.Name == o.Name && a.Command == o.Command && s.get a.Args == s.get o.Args
  | _, _ => false

end structs

/-! ### Legacy CPU topology conversion (nomad/structs, part_002) -/

namespace structs

/-- `LegacyNodeCpuResources`: `CpuShares` is an `int64`, `TotalCpuCores` a
`uint16`, `ReservableCpuCores` a `[]uint16`. -/
structure LegacyNodeCpuResources where
  CpuShares : Int
  TotalCpuCores : Nat
  ReservableCpuCores : List Nat
deriving DecidableEq

/-- `LegacyNodeCpuResources.empty`: the guard the upgrade path uses to
detect a zero-valued legacy struct. -/
def LegacyNodeCpuResources.empty (r : LegacyNodeCpuResources) : Bool :=
  r.CpuShares == 0 || r.TotalCpuCores == 0 || r.ReservableCpuCores.length == 0

/-- Core grades of `numalib.Core` (only `Performance` is produced here). -/
inductive CoreGrade
  | Performance
  | Efficiency
deriving DecidableEq

/-- `numalib.Core`, restricted to the fields `topologyFromLegacy` sets.
`GuessSpeed` is a `hw.MHz` (an unsigned 64-bit quantity), kept as `Nat`. -/
structure Core where
  ID : Nat
  SocketID : Nat
  NodeID : Nat
  Grade : CoreGrade
  Disable : Bool
  GuessSpeed : Nat
deriving DecidableEq

/-- `numalib.Topology`, restricted to the fields `topologyFromLegacy` sets. -/
structure Topology where
  NodeIDs : List Nat
  Distances : List (List Nat)
  Cores : List Core
  OverrideTotalCompute : Nat
  OverrideWitholdCompute : Nat
deriving DecidableEq

/-- Go conversion `uint64(x)` of an `int64`: the value modulo `2^64`
(two's-complement reinterpretation). -/
def toUint64 (x : Int) : Nat := (x % ((2 : Int) ^ 64)).toNat

/-- Go `uint64` subtraction `a - b`, wrapping modulo `2^64`. -/
def goU64Sub (a b : Nat) : Nat :=
  (a % 2 ^ 64 + (2 ^ 64 - b % 2 ^ 64)) % 2 ^ 64

/-- `topologyFromLegacy`: per-core frequency is the truncated `int64`
division `CpuShares / len(ReservableCpuCores)` converted to `hw.MHz`
(uint64); one `Core` per reservable core ID, single socket and NUMA node;
withheld compute is `frequency*TotalCpuCores - CpuShares` in wrapping
`uint64` arithmetic. Go division by zero is a runtime panic, modelled as
`none`: the result is only defined when `ReservableCpuCores` is nonempty. -/
def topologyFromLegacy (old : LegacyNodeCpuResources) : Option Topology :=
  if old.ReservableCpuCores.length = 0 then none
  else
    let frequency : Nat :=
      toUint64 (Int.tdiv old.CpuShares (old.ReservableCpuCores.length : Int))
    let cores : List Core :=
      old.ReservableCpuCores.map (fun id =>
        { ID := id, SocketID := 0, NodeID := 0, Grade := CoreGrade.Performance,
          Disable := false, GuessSpeed := frequency })
    let withheld : Nat :=
      goU64Sub (frequency * old.TotalCpuCores) (toUint64 old.CpuShares)
    some
      { NodeIDs := [0], Distances := [[10]], Cores := cores,
        OverrideTotalCompute := toUint64 old.CpuShares,
        OverrideWitholdCompute := withheld }

end structs

/-! ## Theorems -/

/-- C1: the abort callback `ExecSession` wires into the escape scanner
returns `true` on the byte `.` (46) — swallowing the sequence — after
restoring both terminal modes and firing the cancellation signal, and on
any other byte returns `false` with no effect at all. -/
theorem abortCallback_dot_aborts :
    (abortCallback 46).fst = true ∧
    TermEffect.restoreOutput ∈ (abortCallback 46).snd ∧
    TermEffect.restoreInput ∈ (abortCallback 46).snd ∧
    TermEffect.cancel ∈ (abortCallback 46).snd ∧
    (∀ c : Nat, c ≠ 46 → abortCallback c = (false, [])) := by
  refine ⟨rfl, by decide, by decide, by decide, ?_⟩
  intro c hc
  simp [abortCallback, hc]

/-- Witness for `abortCallback_dot_aborts` at the byte 97 (`a`). -/
theorem abortCallback_dot_aborts_witness :
    (97 : Nat) ≠ 46 ∧ abortCallback 97 = (false, []) :=
  ⟨by decide, abortCallback_dot_aborts.2.2.2.2 97 (by decide)⟩

/-- C6: the "Connection closed" notice is written exactly on the in-band
escape abort: the callback writes it on the byte `.`, writes nothing on any
other byte, while the OS-signal handler fires the cancellation signal and
never writes to stderr. -/
theorem connection_closed_notice_only_on_escape :
    TermEffect.writeStderr connectionClosedMsg ∈ (abortCallback 46).snd ∧
    (∀ c : Nat, c ≠ 46 → ∀ m, TermEffect.writeStderr m ∉ (abortCallback c).snd) ∧
    TermEffect.cancel ∈ signalHandlerEffects ∧
    (∀ m, TermEffect.writeStderr m ∉ signalHandlerEffects) := by
  refine ⟨by decide, ?_, by decide, ?_⟩
  · intro c hc m
    simp [abortCallback, hc]
  · intro m
    simp [signalHandlerEffects]

/-- Witness for `connection_closed_notice_only_on_escape` at the byte 120
(`x`). -/
theorem connection_closed_notice_witness :
    (120 : Nat) ≠ 46 ∧
    TermEffect.writeStderr connectionClosedMsg ∉ (abortCallback 120).snd :=
  ⟨by decide,
   connection_closed_notice_only_on_escape.2.1 120 (by decide) connectionClosedMsg⟩

/-- C2: requesting `-t` with `-i=false` makes `Run` report a validation
error and return 1; the result does not depend on the environment at all
(no client connection, resolution or session happens). -/
theorem tty_requires_stdin :
    ∀ (i : RunInput) (env env2 : RunEnv),
      i.ttyOpt = true → i.stdinOpt = false →
      (runCmd i env).fst = 1 ∧
      isValidationOutcome (runCmd i env).snd = true ∧
      runCmd i env = runCmd i env2 := by
  intro i env env2 ht hs
  unfold runCmd
  split
  · exact ⟨rfl, rfl, rfl⟩
  · split
    · exact ⟨rfl, rfl, rfl⟩
    · rw [ht, hs]
      simp [isValidationOutcome]

/-- A session environment where every external call succeeds and the remote
command exits 0. -/
def okExecEnv : ExecEnv :=
  { stdinPresent := true, rawIn := Except.ok (), rawOut := Except.ok (),
    sizeWatch := Except.ok (), execResult := (0, none) }

/-- An environment whose client initialisation succeeds but whose lookups
all fail. -/
def failingLookupEnv : RunEnv :=
  { clientInit := Except.ok (), jobIDLookup := Except.error "down",
    randomAlloc := Except.error "down", allocList := Except.error "down",
    allocInfo := fun _ => Except.error "down", exec := okExecEnv }

/-- An environment whose client initialisation itself fails. -/
def noClientEnv : RunEnv :=
  { clientInit := Except.error "no client", jobIDLookup := Except.error "down",
    randomAlloc := Except.error "down", allocList := Except.error "down",
    allocInfo := fun _ => Except.error "down", exec := okExecEnv }

/-- An invocation requesting `-t` with `-i=false`. -/
def ttyNoStdinInput : RunInput :=
  { args := ["ping"], job := "web", group := "", task := "", allocation := "",
    stdinOpt := false, ttyOpt := true, escapeChar := "~" }

/-- Witness for `tty_requires_stdin`: two environments, one without a
working client, give the identical validation failure. -/
theorem tty_requires_stdin_witness :
    (runCmd ttyNoStdinInput failingLookupEnv).fst = 1 ∧
    isValidationOutcome (runCmd ttyNoStdinInput failingLookupEnv).snd = true ∧
    runCmd ttyNoStdinInput failingLookupEnv = runCmd ttyNoStdinInput noClientEnv :=
  tty_requires_stdin ttyNoStdinInput failingLookupEnv noClientEnv rfl rfl

/-- C3 counterexample: the claim "only the literal string `none` disables
escape processing, ... every single-character value is accepted" is false on
the code: the empty string is accepted by the validation and also disables
escape processing, and the single-character value `é` (two UTF-8 bytes) is
rejected by the `len(escapeChar) > 1` check. -/
theorem escape_flag_claim_counterexample :
    (("" : String) ≠ "none" ∧ escapeFlagRejected "" = false ∧
      escapeScannerByte true (normalizeEscapeChar "") = none) ∧
    (("é" : String).length = 1 ∧ escapeFlagRejected "é" = true) := by
  refine ⟨⟨by decide, by decide, by decide⟩, by decide, by decide⟩

/-- C3 amended: only `none` or the empty string disable escape processing;
any other value longer than one byte is a validation error with exit code 1;
every single-byte value is accepted and its byte is the one wired into the
escape scanner. -/
theorem escape_flag_amended :
    ∀ (e : String) (i : RunInput) (env : RunEnv),
      (escapeScannerByte true (normalizeEscapeChar e) = none ↔
        (e = "none" ∨ e = "")) ∧
      (e ≠ "none" → 1 < goLen e →
        escapeFlagRejected e = true ∧
        (i.escapeChar = e → 1 ≤ i.args.length → i.job ≠ "" →
          (i.ttyOpt && !i.stdinOpt) = false →
          runCmd i env = (1, RunOutcome.errEscapeLen))) ∧
      (goLen e = 1 →
        escapeFlagRejected e = false ∧
        escapeScannerByte true (normalizeEscapeChar e) = some (goFirstByte e)) := by
  intro e i env
  refine ⟨?_, ?_, ?_⟩
  · by_cases hn : e = "none"
    · simp [normalizeEscapeChar, escapeScannerByte, hn]
    · by_cases he : e = ""
      · simp [normalizeEscapeChar, escapeScannerByte, hn, he]
      · simp [normalizeEscapeChar, escapeScannerByte, hn, he]
  · intro hn hl
    have hrej : escapeFlagRejected e = true := by
      simp [escapeFlagRejected, normalizeEscapeChar, hn]
      exact hl
    refine ⟨hrej, ?_⟩
    intro hec hargs hjob htty
    unfold runCmd
    rw [if_neg (by omega), if_neg hjob, htty, hec, hrej]
    simp
  · intro hl
    have hn : e ≠ "none" := by
      intro h
      rw [h] at hl
      exact absurd hl (by decide)
    have hrej : escapeFlagRejected e = false := by
      simp [escapeFlagRejected, normalizeEscapeChar, hn]
      omega
    have hne : e ≠ "" := by
      intro h
      rw [h] at hl
      exact absurd hl (by decide)
    refine ⟨hrej, ?_⟩
    simp [escapeScannerByte, normalizeEscapeChar, hn, hne]

/-- An invocation passing the two-byte escape value `xy`. -/
def longEscapeInput : RunInput :=
  { args := ["ping"], job := "web", group := "", task := "", allocation := "",
    stdinOpt := true, ttyOpt := true, escapeChar := "xy" }

/-- Witness for `escape_flag_amended` at the two-byte value `xy`. -/
theorem escape_flag_amended_witness :
    escapeFlagRejected "xy" = true ∧
    runCmd longEscapeInput failingLookupEnv = (1, RunOutcome.errEscapeLen) := by
  have h := (escape_flag_amended "xy" longEscapeInput failingLookupEnv).2.1
    (by decide) (by decide)
  exact ⟨h.1, h.2 rfl (by decide) (by decide) (by decide)⟩

/-- Helper: every error the allocation-resolution block can return carries
exit code 1 and is not a session exit. -/
theorem resolveAllocStub_error_shape (i : RunInput) (env : RunEnv)
    (r : Int × RunOutcome) (h : resolveAllocStub i env = Except.error r) :
    r.fst = 1 ∧ ∀ code stub t, r.snd ≠ RunOutcome.exited code stub t := by
  unfold resolveAllocStub at h
  repeat' split at h
  all_goals
    first
      | (injection h with h2
         subst h2
         exact ⟨rfl, fun code stub t hc => by cases hc⟩)
      | cases h

/-- Helper: unpack `passesFlagValidation`. -/
theorem passesFlagValidation_spec (i : RunInput)
    (h : passesFlagValidation i = true) :
    ¬ i.args.length < 1 ∧ ¬ i.job = "" ∧ (i.ttyOpt && !i.stdinOpt) = false ∧
      escapeFlagRejected i.escapeChar = false := by
  unfold passesFlagValidation at h
  simp only [Bool.and_eq_true, Bool.not_eq_true', decide_eq_true_eq,
    decide_eq_false_iff_not] at h
  obtain ⟨⟨⟨ha, hb⟩, hcnd⟩, hd⟩ := h
  exact ⟨by omega, hb, hcnd, hd⟩

/-- Helper: once the four validations pass and the client initialised,
`runCmd` is the resolution pipeline. -/
theorem runCmd_after_validation (i : RunInput) (env : RunEnv)
    (hv : passesFlagValidation i = true)
    (hc : env.clientInit = Except.ok ()) :
    runCmd i env =
      match resolveAllocStub i env with
      | Except.error r => r
      | Except.ok stub =>
        match env.allocInfo stub.ID with
        | Except.error e => (1, RunOutcome.errAllocInfo e)
        | Except.ok alloc =>
          match resolveTask i.task alloc with
          | Except.error e => (1, RunOutcome.errTask e)
          | Except.ok taskName => finishSession i env stub taskName := by
  obtain ⟨h1, h2, h3, h4⟩ := passesFlagValidation_spec i hv
  unfold runCmd
  rw [if_neg h1, if_neg h2, if_neg (by simp [h3]), if_neg (by simp [h4])]
  simp only [hc]

/-- C4: whenever `Run` completes a session, its return value is the exit
code the remote exec call reported, unchanged; every other outcome (any
validation, resolution, setup or session error) returns 1; and `execImpl`
itself either passes the remote result through unchanged or fails setup
with `-1` and an error. -/
theorem exit_code_mapping :
    ∀ (i : RunInput) (env : RunEnv),
      ((∃ code stub t, runCmd i env = (code, RunOutcome.exited code stub t) ∧
          execImpl i.ttyOpt (normalizeEscapeChar i.escapeChar) env.exec =
            (code, none)) ∨
        ((runCmd i env).fst = 1 ∧
          ∀ code stub t, (runCmd i env).snd ≠ RunOutcome.exited code stub t)) ∧
      (∀ (tty : Bool) (esc : String) (e : ExecEnv),
        execImpl tty esc e = e.execResult ∨
          ∃ m, execImpl tty esc e = ((-1 : Int), some m)) := by
  intro i env
  constructor
  · unfold runCmd
    by_cases h1 : i.args.length < 1
    · rw [if_pos h1]
      exact Or.inr ⟨rfl, fun _ _ _ hc => RunOutcome.noConfusion hc⟩
    rw [if_neg h1]
    by_cases h2 : i.job = ""
    · rw [if_pos h2]
      exact Or.inr ⟨rfl, fun _ _ _ hc => RunOutcome.noConfusion hc⟩
    rw [if_neg h2]
    by_cases h3 : (i.ttyOpt && !i.stdinOpt) = true
    · rw [if_pos h3]
      exact Or.inr ⟨rfl, fun _ _ _ hc => RunOutcome.noConfusion hc⟩
    rw [if_neg h3]
    by_cases h4 : escapeFlagRejected i.escapeChar = true
    · rw [if_pos h4]
      exact Or.inr ⟨rfl, fun _ _ _ hc => RunOutcome.noConfusion hc⟩
    rw [if_neg h4]
    cases h5 : env.clientInit with
    | error e =>
      simp only [h5]
      exact Or.inr ⟨trivial, fun _ _ _ hc => RunOutcome.noConfusion hc⟩
    | ok u =>
      cases u
      simp only [h5]
      cases h6 : resolveAllocStub i env with
      | error r =>
        dsimp only
        exact Or.inr (resolveAllocStub_error_shape i env r h6)
      | ok stub =>
        dsimp only
        cases h7 : env.allocInfo stub.ID with
        | error e =>
          dsimp only
          exact Or.inr ⟨rfl, fun _ _ _ hc => RunOutcome.noConfusion hc⟩
        | ok alloc =>
          dsimp only
          cases h8 : resolveTask i.task alloc with
          | error e =>
            dsimp only
            exact Or.inr ⟨rfl, fun _ _ _ hc => RunOutcome.noConfusion hc⟩
          | ok taskName =>
            dsimp only
            rcases h9 : execImpl i.ttyOpt (normalizeEscapeChar i.escapeChar)
              env.exec with ⟨code, err⟩
            unfold finishSession
            rw [h9]
            cases err with
            | some e =>
              exact Or.inr ⟨rfl, fun _ _ _ hc => RunOutcome.noConfusion hc⟩
            | none =>
              exact Or.inl ⟨code, stub, taskName, rfl, rfl⟩
  · intro tty esc e
    unfold execImpl
    by_cases ht : tty = true
    · rw [if_pos ht]
      by_cases hs : e.stdinPresent = false
      · rw [if_pos hs]
        exact Or.inr ⟨_, rfl⟩
      rw [if_neg hs]
      cases e.rawIn with
      | error m => exact Or.inr ⟨m, rfl⟩
      | ok u =>
        cases u
        cases e.rawOut with
        | error m => exact Or.inr ⟨m, rfl⟩
        | ok u =>
          cases u
          cases e.sizeWatch with
          | error m => exact Or.inr ⟨m, rfl⟩
          | ok u => cases u; exact Or.inl rfl
    · rw [if_neg ht]
      exact Or.inl rfl

/-- The allocation stub `abc123` used by the witnesses. -/
def stubA : AllocStub := { ID := "abc123", NS := "default" }

/-- The allocation stub `abc789` used by the witnesses. -/
def stubB : AllocStub := { ID := "abc789", NS := "default" }

/-- A fully successful environment: one allocation `abc123` holding the
single task `server`, remote command exits with code 7. -/
def successEnv : RunEnv :=
  { clientInit := Except.ok (), jobIDLookup := Except.ok ("web", "default"),
    randomAlloc := Except.ok stubA, allocList := Except.ok [stubA],
    allocInfo := fun id =>
      if id = "abc123" then Except.ok { ID := "abc123", Tasks := ["server"] }
      else Except.error "not found",
    exec := { okExecEnv with execResult := (7, none) } }

/-- An invocation running action `ping` against allocation prefix `abc1`. -/
def allocInput : RunInput :=
  { args := ["ping"], job := "web", group := "", task := "",
    allocation := "abc1", stdinOpt := true, ttyOpt := false, escapeChar := "~" }

/-- Witness for `exit_code_mapping`: a completed session propagates the
remote exit code 7 unchanged. -/
theorem exit_code_mapping_witness :
    (runCmd allocInput successEnv).fst = 7 ∧
    execImpl allocInput.ttyOpt (normalizeEscapeChar allocInput.escapeChar)
      successEnv.exec = (7, none) := by
  rcases (exit_code_mapping allocInput successEnv).1 with ⟨c, s, t, heq, hex⟩ | ⟨-, h2⟩
  · have h7 : runCmd allocInput successEnv =
        (7, RunOutcome.exited 7 stubA "server") := by decide
    rw [h7] at heq
    injection heq with hfst hsnd
    cases hsnd
    exact ⟨by rw [h7], hex⟩
  · exact absurd (show (runCmd allocInput successEnv).snd =
      RunOutcome.exited 7 stubA "server" by decide) (h2 7 stubA "server")

/-- C5: with an allocation ID or prefix supplied, resolution demands an
exact unique match — an empty result list is the not-found error, more than
one is the ambiguity error carrying the candidates, exactly one is used as
the target; and a resolution error is returned by `Run` verbatim (exit
code 1). -/
theorem alloc_resolution_unique_match :
    ∀ (i : RunInput) (env : RunEnv) (allocs : List AllocStub),
      i.allocation ≠ "" → env.allocList = Except.ok allocs →
      ((allocs = [] → resolveAllocStub i env =
          Except.error (1, RunOutcome.errAllocNotFound i.allocation)) ∧
       (2 ≤ allocs.length → resolveAllocStub i env =
          Except.error (1, RunOutcome.errAllocAmbiguous allocs)) ∧
       (∀ stub, allocs = [stub] → resolveAllocStub i env = Except.ok stub) ∧
       (∀ r, resolveAllocStub i env = Except.error r →
          passesFlagValidation i = true → env.clientInit = Except.ok () →
          runCmd i env = r)) := by
  intro i env allocs ha hl
  refine ⟨?_, ?_, ?_, ?_⟩
  · intro h
    subst h
    unfold resolveAllocStub
    rw [if_neg ha]
    simp only [hl]
  · intro h
    obtain ⟨a, b, rest, rfl⟩ : ∃ a b rest, allocs = a :: b :: rest := by
      match allocs, h with
      | a :: b :: rest, _ => exact ⟨a, b, rest, rfl⟩
    unfold resolveAllocStub
    rw [if_neg ha]
    simp only [hl]
  · intro stub h
    subst h
    unfold resolveAllocStub
    rw [if_neg ha]
    simp only [hl]
  · intro r hr hv hc
    rw [runCmd_after_validation i env hv hc, hr]

/-- An invocation with the ambiguous allocation prefix `abc`. -/
def ambiguousInput : RunInput :=
  { args := ["ping"], job := "web", group := "", task := "",
    allocation := "abc", stdinOpt := true, ttyOpt := false, escapeChar := "~" }

/-- An environment whose allocation listing matches both `abc123` and
`abc789`. -/
def ambiguousEnv : RunEnv :=
  { successEnv with allocList := Except.ok [stubA, stubB] }

/-- Witness for `alloc_resolution_unique_match`: prefix `abc` matches two
allocations, giving the ambiguity error and exit code 1; the same theorem
applied to `successEnv` shows the unique match `abc123` is used. -/
theorem alloc_resolution_unique_match_witness :
    resolveAllocStub ambiguousInput ambiguousEnv =
      Except.error (1, RunOutcome.errAllocAmbiguous [stubA, stubB]) ∧
    runCmd ambiguousInput ambiguousEnv =
      (1, RunOutcome.errAllocAmbiguous [stubA, stubB]) ∧
    resolveAllocStub allocInput successEnv = Except.ok stubA := by
  have h := alloc_resolution_unique_match ambiguousInput ambiguousEnv
    [stubA, stubB] (by decide) rfl
  have h2 := alloc_resolution_unique_match allocInput successEnv
    [stubA] (by decide) rfl
  have hamb := h.2.1 (by decide)
  exact ⟨hamb, h.2.2.2 _ hamb (by decide) rfl, h2.2.2.1 stubA rfl⟩

/-- C8: task-name resolution of `Run`. With an explicit `-task` flag the
task must exist in the resolved allocation (otherwise exit 1); with no flag
the task is inferred from the allocation exactly when it has a single task
(otherwise exit 1); and when neither an allocation nor both group and task
are given, `Run` stops with a validation error and exit code 1. -/
theorem task_resolution :
    ∀ (i : RunInput) (env : RunEnv),
      passesFlagValidation i = true → env.clientInit = Except.ok () →
      ((i.allocation = "" → i.group = "" →
          runCmd i env = (1, RunOutcome.errNoGroup)) ∧
       (i.allocation = "" → i.group ≠ "" → i.task = "" →
          runCmd i env = (1, RunOutcome.errNoTask)) ∧
       (∀ stub alloc, resolveAllocStub i env = Except.ok stub →
          env.allocInfo stub.ID = Except.ok alloc →
          ((i.task ≠ "" → alloc.Tasks.contains i.task = false →
             runCmd i env =
               (1, RunOutcome.errTask
                 ("Could not find task named: " ++ i.task))) ∧
           (i.task ≠ "" → alloc.Tasks.contains i.task = true →
             runCmd i env = finishSession i env stub i.task) ∧
           (i.task = "" → ∀ t, alloc.Tasks = [t] →
             runCmd i env = finishSession i env stub t) ∧
           (i.task = "" → (∀ t, alloc.Tasks ≠ [t]) →
             runCmd i env = (1, RunOutcome.errTask
               "Allocation has multiple tasks, please specify the task"))))) := by
  intro i env hv hc
  have hred := runCmd_after_validation i env hv hc
  refine ⟨?_, ?_, ?_⟩
  · intro hA hG
    have hr : resolveAllocStub i env = Except.error (1, RunOutcome.errNoGroup) := by
      unfold resolveAllocStub
      rw [if_pos hA, if_pos hG]
    rw [hred]
    simp only [hr]
  · intro hA hG hT
    have hr : resolveAllocStub i env = Except.error (1, RunOutcome.errNoTask) := by
      unfold resolveAllocStub
      rw [if_pos hA, if_neg hG, if_pos hT]
    rw [hred]
    simp only [hr]
  · intro stub alloc hs ha
    rw [hred]
    simp only [hs, ha]
    refine ⟨?_, ?_, ?_, ?_⟩
    · intro hT hcont
      have hrt : resolveTask i.task alloc =
          Except.error ("Could not find task named: " ++ i.task) := by
        unfold resolveTask validateTaskExistsInAllocation
        rw [if_pos hT, if_neg (by simp only [hcont]; decide)]
        rfl
      simp only [hrt]
    · intro hT hcont
      have hrt : resolveTask i.task alloc = Except.ok i.task := by
        unfold resolveTask validateTaskExistsInAllocation
        rw [if_pos hT, if_pos hcont]
        rfl
      simp only [hrt]
    · intro hT t hts
      have hrt : resolveTask i.task alloc = Except.ok t := by
        unfold resolveTask lookupAllocTask
        rw [if_neg (by simp [hT]), hts]
      simp only [hrt]
    · intro hT hno
      have hrt : resolveTask i.task alloc = Except.error
          "Allocation has multiple tasks, please specify the task" := by
        unfold resolveTask lookupAllocTask
        rw [if_neg (by simp [hT])]
        cases hts : alloc.Tasks with
        | nil => rfl
        | cons t rest =>
          cases rest with
          | nil => exact absurd hts (hno t)
          | cons t2 rest2 => rfl
      simp only [hrt]

/-- An invocation giving neither an allocation nor a group. -/
def noGroupInput : RunInput :=
  { args := ["ping"], job := "web", group := "", task := "", allocation := "",
    stdinOpt := true, ttyOpt := false, escapeChar := "~" }

/-- Witness for `task_resolution`: single-task inference picks `server`,
and omitting both allocation and group is a validation failure. -/
theorem task_resolution_witness :
    runCmd allocInput successEnv = finishSession allocInput successEnv stubA "server" ∧
    runCmd noGroupInput failingLookupEnv = (1, RunOutcome.errNoGroup) := by
  have h := task_resolution allocInput successEnv (by decide) rfl
  have h2 := task_resolution noGroupInput failingLookupEnv (by decide) rfl
  exact ⟨(h.2.2 stubA { ID := "abc123", Tasks := ["server"] } rfl rfl).2.2.1
    rfl "server" rfl, h2.1 rfl rfl⟩

/-- C7: in a tty session the scoped resources are acquired in the order
input terminal, output terminal, size watcher; on every exit path the
deferred releases run in exactly the reverse of the acquisition order, every
acquired resource is effectively released exactly once (and unacquired ones
not at all); the escape path invokes the terminal releases twice but the
idempotence guard means no double release takes effect. -/
theorem scoped_release_order :
    acquiredOn TtyExitPath.normal =
      [ScopedRes.inputTerm, ScopedRes.outputTerm, ScopedRes.sizeWatcher] ∧
    ∀ p : TtyExitPath,
      deferredReleases p = (acquiredOn p).reverse ∧
      (∀ r : ScopedRes, r ∈ acquiredOn p → effectiveCount p r = 1) ∧
      (∀ r : ScopedRes, r ∉ acquiredOn p → effectiveCount p r = 0) ∧
      (releaseInvocations TtyExitPath.escapeAbort).count ScopedRes.outputTerm = 2 ∧
      (releaseInvocations TtyExitPath.escapeAbort).count ScopedRes.inputTerm = 2 ∧
      effectiveCount TtyExitPath.escapeAbort ScopedRes.outputTerm = 1 ∧
      effectiveCount TtyExitPath.escapeAbort ScopedRes.inputTerm = 1 := by
  decide

/-- Witness for `scoped_release_order` on the escape-abort path and the
input terminal. -/
theorem scoped_release_order_witness :
    ScopedRes.inputTerm ∈ acquiredOn TtyExitPath.escapeAbort ∧
    effectiveCount TtyExitPath.escapeAbort ScopedRes.inputTerm = 1 :=
  ⟨by decide,
   (scoped_release_order.2 TtyExitPath.escapeAbort).2.1 ScopedRes.inputTerm (by decide)⟩

/-- C9: `Action.Copy` maps nil to nil and otherwise yields a structurally
`Equal` action whose `Args` is fresh storage — mutating the copy's `Args`
slice leaves the original's unchanged; `Equal` is value-based, true on two
nils and false when exactly one side is nil. -/
theorem action_copy_equal :
    ∀ (s : structs.Store) (a : structs.Action),
      structs.Action.Copy s none = (s, none) ∧
      structs.Action.Equal s none none = true ∧
      (∀ o : structs.Action,
        structs.Action.Equal s (some o) none = false ∧
        structs.Action.Equal s none (some o) = false) ∧
      (structs.Store.valid s a.Args →
        ∀ s2 na, structs.Action.Copy s (some a) = (s2, some na) →
          structs.Action.Equal s2 (some a) (some na) = true ∧
          na.Args ≠ a.Args ∧
          (∀ v, structs.Store.get (structs.Store.set s2 na.Args v) a.Args =
              structs.Store.get s a.Args) ∧
          structs.Store.get s2 na.Args = structs.Store.get s a.Args) := by
  intro s a
  refine ⟨rfl, rfl, fun o => ⟨rfl, rfl⟩, ?_⟩
  intro hvalid s2 na hcopy
  unfold structs.Action.Copy structs.Store.alloc at hcopy
  injection hcopy with hs2 hna
  injection hna with hna
  subst hs2
  subst hna
  have hfresh : structs.Store.get
      { cells := s.cells ++ [structs.Store.get s a.Args] } s.cells.length =
      structs.Store.get s a.Args := by
    unfold structs.Store.get
    rw [List.getD_append_right _ _ _ _ (Nat.le_refl _)]
    simp
  have hold : structs.Store.get
      { cells := s.cells ++ [structs.Store.get s a.Args] } a.Args =
      structs.Store.get s a.Args := by
    unfold structs.Store.get
    exact List.getD_append _ _ _ _ hvalid
  have hne : s.cells.length ≠ a.Args :=
    fun h => absurd (h ▸ hvalid) (Nat.lt_irrefl _)
  refine ⟨?_, hne, ?_, hfresh⟩
  · unfold structs.Action.Equal
    dsimp only
    rw [hold, hfresh]
    simp
  · intro v
    unfold structs.Store.get structs.Store.set
    dsimp only
    rw [List.getD_eq_getElem?_getD, List.getElem?_set_ne hne,
      ← List.getD_eq_getElem?_getD]
    exact List.getD_append _ _ _ _ hvalid

/-- A one-cell store for the copy witness. -/
def wStore : structs.Store := { cells := [["a", "b"]] }

/-- A concrete action pointing at the store's only slice. -/
def wAction : structs.Action := { Name := "n", Command := "c", Args := 0 }

/-- The store after copying `wAction`: the clone occupies a fresh cell. -/
def wStore2 : structs.Store := { cells := [["a", "b"], ["a", "b"]] }

/-- The copy of `wAction`: same values, fresh `Args` reference. -/
def wCopy : structs.Action := { Name := "n", Command := "c", Args := 1 }

/-- Witness for `action_copy_equal` on a concrete store: the copy is
`Equal`, holds a fresh reference, and mutating it leaves the original. -/
theorem action_copy_equal_witness :
    structs.Action.Equal wStore2 (some wAction) (some wCopy) = true ∧
    wCopy.Args ≠ wAction.Args ∧
    structs.Store.get (structs.Store.set wStore2 wCopy.Args ["x"]) wAction.Args =
      structs.Store.get wStore wAction.Args := by
  have h := (action_copy_equal wStore wAction).2.2.2
    (by unfold structs.Store.valid; decide) wStore2 wCopy rfl
  exact ⟨h.1, h.2.1, h.2.2.1 ["x"]⟩

/-- C10: `topologyFromLegacy` is defined exactly when `ReservableCpuCores`
is nonempty — then it produces one performance core per reservable core ID,
each carrying the per-core frequency `CpuShares / len(ReservableCpuCores)` —
while an empty slice makes the division undefined (`none`); a legacy struct
that passes the `empty()` guard always has a nonempty slice. -/
theorem topologyFromLegacy_defined :
    ∀ old : structs.LegacyNodeCpuResources,
      (0 < old.ReservableCpuCores.length →
        ∃ t, structs.topologyFromLegacy old = some t ∧
          t.Cores.length = old.ReservableCpuCores.length ∧
          t.Cores.map structs.Core.ID = old.ReservableCpuCores ∧
          ∀ c ∈ t.Cores, c.GuessSpeed =
            structs.toUint64
              (Int.tdiv old.CpuShares (old.ReservableCpuCores.length : Int))) ∧
      (old.ReservableCpuCores.length = 0 →
        structs.topologyFromLegacy old = none) ∧
      (old.empty = false → 0 < old.ReservableCpuCores.length) := by
  intro old
  refine ⟨?_, ?_, ?_⟩
  · intro h
    unfold structs.topologyFromLegacy
    rw [if_neg h.ne']
    refine ⟨_, rfl, ?_, ?_, ?_⟩
    · simp
    · simp only [List.map_map]
      rw [show (structs.Core.ID ∘ fun id =>
          ({ ID := id, SocketID := 0, NodeID := 0,
             Grade := structs.CoreGrade.Performance, Disable := false,
             GuessSpeed := structs.toUint64
               (Int.tdiv old.CpuShares
                 (old.ReservableCpuCores.length : Int)) } : structs.Core)) = id
        from funext fun _ => rfl, List.map_id]
    · intro c hc
      simp only [List.mem_map] at hc
      obtain ⟨id, hid, rfl⟩ := hc
      rfl
  · intro h
    unfold structs.topologyFromLegacy
    rw [if_pos h]
  · intro h
    by_contra hlen
    have hlen0 : old.ReservableCpuCores.length = 0 := by omega
    unfold structs.LegacyNodeCpuResources.empty at h
    rw [hlen0] at h
    simp at h

/-- A pre-1.7 CPU resources sample: 4000 MHz over four reservable cores. -/
def legacySample : structs.LegacyNodeCpuResources :=
  { CpuShares := 4000, TotalCpuCores := 4, ReservableCpuCores := [0, 1, 2, 3] }

/-- Witness for `topologyFromLegacy_defined` on `legacySample`. -/
theorem topologyFromLegacy_defined_witness :
    (structs.topologyFromLegacy legacySample).isSome = true ∧
    legacySample.empty = false := by
  obtain ⟨t, ht, -, -, -⟩ :=
    (topologyFromLegacy_defined legacySample).1 (by decide)
  exact ⟨by rw [ht]; rfl, by decide⟩
